/-
Verification of the signal-generation pipeline of the algo_trade repository.

The development shallowly embeds the Python sources:
  * src/core/indicators.py        (calculate_bollinger_bands, calculate_williams_r)
  * src/services/strategies.py    (BollingerWilliamsStrategy.analyze)
  * src/services/trading_service.py
        (TradingService._fetch_and_prepare_data, analyze_stock, scan_stocks)

Modelling conventions:
  * A pandas DataFrame is a `Frame`: a date index plus named columns of
    optional rationals.  `none` models a missing value (NaN / pd.NA);
    machine floats are modelled as exact rationals.
  * A Python dict returned by the service or strategy is a `SignalDict`,
    an ordered association list of field name to `PyVal`; key order follows
    the literal order in the source.
  * A raised Python exception is `Except.error` with the message string;
    `Except.ok` is a normal return.
  * The brokerage collaborator (core/kis_api.py) is an external boundary:
    it is a record of functions (`KisClient`), each returning `Except` so a
    collaborator call may raise.
  * `analyze_stock` additionally returns the ordered list of pipeline
    events it performed (`CallEvent`), so that short-circuiting claims
    ("the strategy is never invoked") are stated operationally.
-/
import Mathlib

namespace AlgoTrade

/-- A single cell of a DataFrame column: `none` models NaN / pd.NA. -/
abbrev Cell := Option ℚ

/-- One DataFrame column: the list of cells, one per row. -/
abbrev Col := List Cell

/-- Label lookup in an ordered column list: the first column with the name. -/
def colLookup : List (String × Col) → String → Option Col
  | [], _ => none
  | p :: t, c => if p.1 = c then some p.2 else colLookup t c

/-- In-place column replacement: every column named `c` gets the new cells,
all other columns are untouched; column order is preserved. -/
def colReplace : List (String × Col) → String → Col → List (String × Col)
  | [], _, _ => []
  | p :: t, c, v => if p.1 = c then (c, v) :: colReplace t c v else p :: colReplace t c v

/-- Shallow embedding of a pandas DataFrame with a date index: the index
labels (dates, as YYYYMMDD integers) and the named columns in order. -/
structure Frame where
  index : List Int
  cols : List (String × Col)
deriving DecidableEq, Repr

namespace Frame

/-- `len(data)`: the number of rows (the length of the index). -/
def len (f : Frame) : Nat := f.index.length

/-- Column lookup, `data[c]` on the column axis: the first column named `c`. -/
def getCol (f : Frame) (c : String) : Option Col := colLookup f.cols c

/-- `c in data.columns`. -/
def hasCol (f : Frame) (c : String) : Bool := (f.getCol c).isSome

/-- `data[c] = v`: pandas replaces the column in place when the name exists
(keeping its position) and appends a new column at the end otherwise. -/
def setCol (f : Frame) (c : String) (v : Col) : Frame :=
  { f with cols :=
      if (colLookup f.cols c).isSome then colReplace f.cols c v
      else f.cols ++ [(c, v)] }

/-- The last row's cell of column `c` (`data.iloc[-1][c]`): `none` when the
column is missing or empty, `some cell` otherwise. -/
def lastCell (f : Frame) (c : String) : Option Cell :=
  (f.getCol c).bind List.getLast?

/-- A DataFrame is rectangular: every column has exactly one cell per row.
pandas guarantees this shape; our `Frame` type is more permissive, so the
invariant appears as an explicit hypothesis where last-row access matters. -/
def WF (f : Frame) : Prop := ∀ p ∈ f.cols, (p.2 : Col).length = f.len

end Frame

instance (f : Frame) : Decidable f.WF :=
  inferInstanceAs (Decidable (∀ p ∈ f.cols, (p.2 : Col).length = f.len))

/-! ## Cell arithmetic and rolling windows

The long branches of the two indicator functions delegate to the third-party
`ta` library (`ta.volatility.BollingerBands`, `ta.momentum.WilliamsRIndicator`),
which in turn uses pandas rolling windows with `min_periods = window`
(`fillna=False`, the repository never passes `fillna`).  That behaviour is
embedded here: a rolling statistic at row `i` is present exactly when the
trailing window of width `w` ending at `i` is complete (`i + 1 ≥ w`) and free
of missing values; arithmetic on cells propagates missing values, and a
division by zero yields a missing value (pandas produces inf/NaN there; no
theorem below depends on that distinction).  The rolling standard deviation is
population standard deviation (`ddof=0`, the `ta` convention); its square root
is embedded as the rational square root, since no claim depends on the
numeric magnitude of the band width. -/

/-- NaN-propagating cell addition. -/
def cellAdd : Cell → Cell → Cell
  | some x, some y => some (x + y)
  | _, _ => none

/-- NaN-propagating cell subtraction. -/
def cellSub : Cell → Cell → Cell
  | some x, some y => some (x - y)
  | _, _ => none

/-- NaN-propagating cell division; division by zero is a missing value. -/
def cellDiv : Cell → Cell → Cell
  | some x, some y => if y = 0 then none else some (x / y)
  | _, _ => none

/-- Multiplication of a cell by a scalar. -/
def cellScale (k : ℚ) : Cell → Cell := Option.map (fun x => k * x)

/-- Pointwise combination of two columns. -/
def colZip (op : Cell → Cell → Cell) : Col → Col → Col := List.zipWith op

/-- The trailing window of width `w` ending at row `i`, inclusive. -/
def windowAt (w : Nat) (xs : Col) (i : Nat) : Col := (xs.take (i + 1)).drop (i + 1 - w)

/-- `series.rolling(w, min_periods=w).agg f`: at row `i` the statistic of the
trailing `w` values, present exactly when the window is complete and has no
missing value. -/
def rollingApply (w : Nat) (f : List ℚ → ℚ) (xs : Col) : Col :=
  (List.range xs.length).map (fun i =>
    if i + 1 < w then none
    else
      match (windowAt w xs i).mapM id with
      | some vs => some (f vs)
      | none => none)

/-- Arithmetic mean of a list of rationals. -/
def meanQ (vs : List ℚ) : ℚ := vs.sum / (vs.length : ℚ)

/-- Population variance (`ddof=0`). -/
def popVarQ (vs : List ℚ) : ℚ :=
  (vs.map (fun x => (x - meanQ vs) ^ 2)).sum / (vs.length : ℚ)

/-- Population standard deviation, with the rational square root standing in
for the floating-point one. -/
def popStdQ (vs : List ℚ) : ℚ := Rat.sqrt (popVarQ vs)

/-- Maximum of a list of rationals (`0` on the empty list, which a complete
rolling window never produces). -/
def maxQ : List ℚ → ℚ
  | [] => 0
  | x :: t => t.foldl max x

/-- Minimum of a list of rationals (`0` on the empty list). -/
def minQ : List ℚ → ℚ
  | [] => 0
  | x :: t => t.foldl min x

/-- An all-missing column of `n` rows, as produced by `data[c] = pd.NA`. -/
def naCol (n : Nat) : Col := List.replicate n none

/-! ## Indicator engine (src/core/indicators.py) -/

/-- The five derived Bollinger column names, in assignment order. -/
def bbDerivedCols : List String := ["bb_mavg", "bb_hband", "bb_lband", "bb_pband", "bb_wband"]

/-- Embedding of `calculate_bollinger_bands` (src/core/indicators.py, lines
5-30).  The source assigns the five derived columns in place on the argument
DataFrame (`data['bb_mavg'] = ...`) and returns that same object, so the
returned frame is also the post-call state of the caller's argument.  The
guard raises `ValueError` when the source column is missing; the short branch
(`len(data) < window`) fills all five derived columns with `pd.NA`; the long
branch computes the `ta` Bollinger statistics. -/
def calculate_bollinger_bands (data : Frame) (window : Nat) (window_dev : ℚ)
    (column_name : String) : Except String Frame :=
  if ¬ data.hasCol column_name then
    .error ("Column \x27" ++ column_name ++
      "\x27 not found in DataFrame for Bollinger Bands calculation.")
  else if data.len < window then
    .ok (((((data.setCol "bb_mavg" (naCol data.len)).setCol "bb_hband"
      (naCol data.len)).setCol "bb_lband" (naCol data.len)).setCol "bb_pband"
      (naCol data.len)).setCol "bb_wband" (naCol data.len))
  else
    let close := (data.getCol column_name).getD []
    let mavg := rollingApply window meanQ close
    let mstd := rollingApply window popStdQ close
    let hband := colZip cellAdd mavg (mstd.map (cellScale window_dev))
    let lband := colZip cellSub mavg (mstd.map (cellScale window_dev))
    let pband := colZip cellDiv (colZip cellSub close lband) (colZip cellSub hband lband)
    let wband := (colZip cellDiv (colZip cellSub hband lband) mavg).map (cellScale 100)
    .ok (((((data.setCol "bb_mavg" mavg).setCol "bb_hband" hband).setCol
      "bb_lband" lband).setCol "bb_pband" pband).setCol "bb_wband" wband)

/-- Embedding of `calculate_williams_r` (src/core/indicators.py, lines
32-50).  Same in-place convention as `calculate_bollinger_bands`: the single
derived column `wr` is assigned on the argument object and the same object is
returned.  The guard raises `ValueError` unless `high`, `low` and `close` are
all present; the short branch (`len(data) < period`) fills `wr` with `pd.NA`;
the long branch computes the `ta` Williams %R statistic. -/
def calculate_williams_r (data : Frame) (period : Nat) : Except String Frame :=
  if ¬ (data.hasCol "high" ∧ data.hasCol "low" ∧ data.hasCol "close") then
    .error "DataFrame must contain [\x27high\x27, \x27low\x27, \x27close\x27] columns for Williams %R calculation."
  else if data.len < period then
    .ok (data.setCol "wr" (naCol data.len))
  else
    let high := (data.getCol "high").getD []
    let low := (data.getCol "low").getD []
    let close := (data.getCol "close").getD []
    let hh := rollingApply period maxQ high
    let ll := rollingApply period minQ low
    let wr := (colZip cellDiv (colZip cellSub hh close) (colZip cellSub hh ll)).map
      (cellScale (-100))
    .ok (data.setCol "wr" wr)

/-! ## Result dictionaries -/

/-- A Python value stored in a result dict.  `null` is Python `None`;
`time d` is an ISO timestamp rendered from the date label `d`; `dict` is the
nested indicator mapping, whose values are floats or `None`/NaN. -/
inductive PyVal where
  | null
  | num (q : ℚ)
  | str (s : String)
  | time (d : Int)
  | dict (entries : List (String × Option ℚ))
deriving DecidableEq, Repr

/-- A Python result dict: ordered fields, in the literal order of the source. -/
abbrev SignalDict := List (String × PyVal)

/-- Key lookup in a result dict (`d[k]` / `d.get(k)` presence). -/
def dictLookup : SignalDict → String → Option PyVal
  | [], _ => none
  | p :: t, k => if p.1 = k then some p.2 else dictLookup t k

/-- The key set of a result dict, in order. -/
def dictKeys (d : SignalDict) : List String := d.map (fun p => p.1)

/-- A cell rendered as a Python dict value (`NaN`/`pd.NA` → `None`). -/
def cellPy : Cell → PyVal
  | some q => PyVal.num q
  | none => PyVal.null

/-- `latest_data.name.isoformat()` with the `datetime.now()` fallback of the
source for a missing label; the fallback (rendered here as label `0`) is
unreachable on the nonempty frames that reach the success branches. -/
def tsVal (f : Frame) : PyVal :=
  match f.index.getLast? with
  | some d => PyVal.time d
  | none => PyVal.time 0

/-! ## Decision conditions and module constants

`BB_WINDOW`, `BB_STD_DEV`, `WILLIAMS_R_PERIOD`, `WILLIAMS_R_OVERSOLD` and
`WILLIAMS_R_OVERBOUGHT` are defined with these same values at module level in
both src/services/strategies.py and src/services/trading_service.py. -/

def BB_WINDOW : Nat := 20

def BB_STD_DEV : ℚ := 2

def WILLIAMS_R_PERIOD : Nat := 14

def WILLIAMS_R_OVERSOLD : ℚ := -80

def WILLIAMS_R_OVERBOUGHT : ℚ := -20

/-- The BUY trigger, exactly as written in both decision sites
(`last_close < lower_band and william_r < wr_oversold`). -/
def buy_condition (last_close lower_band william_r wr_oversold : ℚ) : Bool :=
  decide (last_close < lower_band) && decide (william_r < wr_oversold)

/-- The SELL trigger, exactly as written in both decision sites
(`last_close > upper_band and william_r > wr_overbought`). -/
def sell_condition (last_close upper_band william_r wr_overbought : ℚ) : Bool :=
  decide (last_close > upper_band) && decide (william_r > wr_overbought)

/-! Reason strings.  The sources format the numbers with `:.2f`; the exact
rational rendering stands in for that fixed-point formatting — no claim
depends on the digits. -/

/-- The Korean BUY reason of `BollingerWilliamsStrategy.analyze`. -/
def strategyBuyReason (last_close lower_band william_r wr_oversold : ℚ) : String :=
  "가격(" ++ toString last_close ++ ")이 BB하단(" ++ toString lower_band ++
    ")보다 낮고, Williams %R(" ++ toString william_r ++ " < " ++
    toString wr_oversold ++ ")이 과매도 상태."

/-- The Korean SELL reason of `BollingerWilliamsStrategy.analyze`. -/
def strategySellReason (last_close upper_band william_r wr_overbought : ℚ) : String :=
  "가격(" ++ toString last_close ++ ")이 BB상단(" ++ toString upper_band ++
    ")보다 높고, Williams %R(" ++ toString william_r ++ " > " ++
    toString wr_overbought ++ ")이 과매수 상태."

/-- The BUY reason of `TradingService.analyze_stock`. -/
def serviceBuyReason (last_close lower_band william_r : ℚ) : String :=
  "Price (" ++ toString last_close ++ ") below lower BB (" ++ toString lower_band ++
    ") and Williams %R (" ++ toString william_r ++ " < " ++
    toString WILLIAMS_R_OVERSOLD ++ ") indicates oversold."

/-- The SELL reason of `TradingService.analyze_stock`. -/
def serviceSellReason (last_close upper_band william_r : ℚ) : String :=
  "Price (" ++ toString last_close ++ ") above upper BB (" ++ toString upper_band ++
    ") and Williams %R (" ++ toString william_r ++ " > " ++
    toString WILLIAMS_R_OVERBOUGHT ++ ") indicates overbought."

/-! ## Strategy (src/services/strategies.py) -/

/-- The configurable parameters of `BollingerWilliamsStrategy`; the module
constants above are the constructor defaults. -/
structure BollingerWilliamsStrategy where
  bb_window : Nat
  bb_std_dev : ℚ
  wr_period : Nat
  wr_oversold : ℚ
  wr_overbought : ℚ
deriving DecidableEq, Repr

/-- A `BollingerWilliamsStrategy()` built with the constructor defaults. -/
def defaultStrategy : BollingerWilliamsStrategy :=
  ⟨BB_WINDOW, BB_STD_DEV, WILLIAMS_R_PERIOD, WILLIAMS_R_OVERSOLD, WILLIAMS_R_OVERBOUGHT⟩

/-- The NO_DATA dict of `BollingerWilliamsStrategy.analyze` (lines 65-68). -/
def strategy_no_data_dict (stock_code : String) (current_price : ℚ) : SignalDict :=
  [("stock_code", PyVal.str stock_code), ("price_at_signal", PyVal.null),
   ("current_market_price", PyVal.num current_price),
   ("signal", PyVal.str "NO_DATA"),
   ("reason", PyVal.str "분석을 위한 과거 데이터 부족."),
   ("indicators", PyVal.dict [])]

/-- The NO_INDICATOR dict of `BollingerWilliamsStrategy.analyze` (lines
79-86); `cClose` etc. are the last-row cells of the four required columns. -/
def strategy_no_indicator_dict (stock_code : String) (current_price : ℚ)
    (cClose cLb cHb cWr midCell : Cell) : SignalDict :=
  [("stock_code", PyVal.str stock_code), ("price_at_signal", cellPy cClose),
   ("current_market_price", PyVal.num current_price),
   ("signal", PyVal.str "NO_INDICATOR"),
   ("reason", PyVal.str "최신 기간에 대한 지표 계산 실패."),
   ("indicators", PyVal.dict
      [("bollinger_lower", cLb), ("bollinger_middle", midCell),
       ("bollinger_upper", cHb), ("williams_r", cWr)])]

/-- The success dict of `BollingerWilliamsStrategy.analyze` (lines 108-121). -/
def strategy_success_dict (stock_code : String) (df : Frame)
    (last_close lower_band upper_band william_r current_price : ℚ)
    (signal reason : String) : SignalDict :=
  [("stock_code", PyVal.str stock_code), ("timestamp", tsVal df),
   ("price_at_signal", PyVal.num last_close),
   ("current_market_price", PyVal.num current_price),
   ("signal", PyVal.str signal), ("reason", PyVal.str reason),
   ("indicators", PyVal.dict
      [("bollinger_lower", some lower_band),
       ("bollinger_middle", (df.lastCell "bb_mavg").join),
       ("bollinger_upper", some upper_band),
       ("williams_r", some william_r)])]

/-- Embedding of `BollingerWilliamsStrategy.analyze` (src/services/strategies.py,
lines 59-121).  `data.copy()` of the source is the identity on frame values
(the copy exists only to confine the indicator engine's in-place writes);
`data.empty` is `len(data) == 0`; an exception from the indicator engine
(missing columns) propagates uncaught as `Except.error`; the lookup of the
four required columns on the last row raises `KeyError` when a column is
missing, which cannot happen after both indicator calls succeed. -/
def BollingerWilliamsStrategy.analyze (s : BollingerWilliamsStrategy)
    (stock_code : String) (data : Frame) (current_price : ℚ) :
    Except String SignalDict :=
  if data.len = 0 ∨ data.len < max s.bb_window s.wr_period then
    .ok (strategy_no_data_dict stock_code current_price)
  else
    match calculate_bollinger_bands data s.bb_window s.bb_std_dev "close" with
    | .error e => .error e
    | .ok df_with_bb =>
      match calculate_williams_r df_with_bb s.wr_period with
      | .error e => .error e
      | .ok df =>
        match df.lastCell "close", df.lastCell "bb_lband",
            df.lastCell "bb_hband", df.lastCell "wr" with
        | some cClose, some cLb, some cHb, some cWr =>
          match cClose, cLb, cHb, cWr with
          | some last_close, some lower_band, some upper_band, some william_r =>
            let sr :=
              if buy_condition last_close lower_band william_r s.wr_oversold then
                ("BUY", strategyBuyReason last_close lower_band william_r s.wr_oversold)
              else if sell_condition last_close upper_band william_r s.wr_overbought then
                ("SELL", strategySellReason last_close upper_band william_r s.wr_overbought)
              else
                ("HOLD", "현재 전략에 따른 명확한 시그널 없음.")
            .ok (strategy_success_dict stock_code df last_close lower_band upper_band
              william_r current_price sr.1 sr.2)
          | cClose, cLb, cHb, cWr =>
            .ok (strategy_no_indicator_dict stock_code current_price cClose cLb cHb cWr
              ((df.lastCell "bb_mavg").join))
        | _, _, _, _ =>
          .error "KeyError: required indicator columns not in index"

/-! ## Trading service (src/services/trading_service.py) -/

/-- One raw historical record from the collaborator, after the dtype
normalisation of `_fetch_and_prepare_data`: the date string parsed to its
YYYYMMDD number (`pd.to_datetime(..., format="%Y%m%d")`), the numeric fields
coerced with `pd.to_numeric(..., errors="coerce")` so an unparseable entry is
a missing value.  `open_` embeds the source field `open`, a Lean keyword. -/
structure RawRow where
  date : Int
  open_ : Option ℚ
  high : Option ℚ
  low : Option ℚ
  close : Option ℚ
  volume : Option ℚ
deriving DecidableEq, Repr

/-- Date order on raw rows, the key of `df.sort_values(by="date")`. -/
def rawDateLe (a b : RawRow) : Prop := a.date ≤ b.date

instance : DecidableRel rawDateLe := fun a b =>
  inferInstanceAs (Decidable (a.date ≤ b.date))

instance : IsTotal RawRow rawDateLe := ⟨fun a b => Int.le_total a.date b.date⟩

instance : IsTrans RawRow rawDateLe :=
  ⟨fun _ _ _ hab hbc => le_trans (α := ℤ) hab hbc⟩

/-- The pure tail of `_fetch_and_prepare_data` (trading_service.py, lines
54-73): empty payload → empty DataFrame; otherwise build the DataFrame,
sort ascending by date and set the date as index.  pandas `sort_values`
(default quicksort) promises only a correct sort, so any sorting algorithm is
an admissible model; insertion sort is used here.  There is no
deduplication step in the source. -/
def prepare_raw (raw : List RawRow) : Frame :=
  if raw.isEmpty then ⟨[], []⟩
  else
    let sorted := List.insertionSort rawDateLe raw
    ⟨sorted.map (fun r => r.date),
     [("open", sorted.map (fun r => r.open_)), ("high", sorted.map (fun r => r.high)),
      ("low", sorted.map (fun r => r.low)), ("close", sorted.map (fun r => r.close)),
      ("volume", sorted.map (fun r => r.volume))]⟩

/-- The brokerage collaborator boundary (core/kis_api.py as seen from the
service): each call may raise (`Except.error`).  `get_stock_price` yields the
current price or `None`; `get_historical_stock_data` yields the raw records
(the date-range arguments, computed from the wall clock, are absorbed into
the collaborator function). -/
structure KisClient where
  get_stock_price : String → Except String (Option ℚ)
  get_historical_stock_data : String → Except String (List RawRow)

/-- The observable pipeline steps of `analyze_stock`, in execution order:
the current-price fetch, the historical fetch, and the indicator/strategy
computation stage. -/
inductive CallEvent where
  | price
  | hist
  | indicators
deriving DecidableEq, Repr

/-- Embedding of `TradingService._fetch_and_prepare_data` (lines 35-73): one
collaborator call, then the pure preparation `prepare_raw`. -/
def fetch_and_prepare_data (client : KisClient) (stock_code : String) :
    Except String Frame :=
  match client.get_historical_stock_data stock_code with
  | .error e => .error e
  | .ok raw => .ok (prepare_raw raw)

/-- The current-price ERROR dict of `analyze_stock` (line 90). -/
def service_error_price_dict (stock_code : String) : SignalDict :=
  [("stock_code", PyVal.str stock_code), ("price", PyVal.null),
   ("signal", PyVal.str "ERROR"),
   ("reason", PyVal.str "Failed to fetch current price.")]

/-- The NO_DATA dict of `analyze_stock` (line 99). -/
def service_no_data_dict (stock_code : String) (current_price : ℚ) : SignalDict :=
  [("stock_code", PyVal.str stock_code), ("price", PyVal.num current_price),
   ("signal", PyVal.str "NO_DATA"),
   ("reason", PyVal.str "Insufficient historical data.")]

/-- The NO_INDICATOR dict of `analyze_stock` (line 112). -/
def service_no_indicator_dict (stock_code : String) (current_price : ℚ) : SignalDict :=
  [("stock_code", PyVal.str stock_code), ("price", PyVal.num current_price),
   ("signal", PyVal.str "NO_INDICATOR"),
   ("reason", PyVal.str "Failed to calculate indicators for the latest period.")]

/-- The success dict of `analyze_stock` (lines 140-153). -/
def service_success_dict (stock_code : String) (df : Frame)
    (last_close lower_band upper_band william_r current_price : ℚ)
    (signal reason : String) : SignalDict :=
  [("stock_code", PyVal.str stock_code), ("timestamp", tsVal df),
   ("price_at_signal", PyVal.num last_close),
   ("current_market_price", PyVal.num current_price),
   ("signal", PyVal.str signal), ("reason", PyVal.str reason),
   ("indicators", PyVal.dict
      [("bollinger_lower", some lower_band),
       ("bollinger_middle", (df.lastCell "bb_mavg").join),
       ("bollinger_upper", some upper_band),
       ("williams_r", some william_r)])]

/-- Embedding of `TradingService.analyze_stock` (trading_service.py, lines
75-153), paired with the ordered trace of pipeline events it performed.
`float(raw)` on the collaborator's price is the identity on the already
numeric model; `df_history.copy()` is the identity on frame values.  An
uncaught Python exception — from a collaborator call or from the indicator
engine's column guard — is `Except.error`. -/
def analyze_stock (client : KisClient) (stock_code : String) :
    Except String SignalDict × List CallEvent :=
  match client.get_stock_price stock_code with
  | .error e => (.error e, [CallEvent.price])
  | .ok none => (.ok (service_error_price_dict stock_code), [CallEvent.price])
  | .ok (some current_price) =>
    match fetch_and_prepare_data client stock_code with
    | .error e => (.error e, [CallEvent.price, CallEvent.hist])
    | .ok df_history =>
      if df_history.len = 0 ∨ df_history.len < max BB_WINDOW WILLIAMS_R_PERIOD then
        (.ok (service_no_data_dict stock_code current_price),
         [CallEvent.price, CallEvent.hist])
      else
        match calculate_bollinger_bands df_history BB_WINDOW BB_STD_DEV "close" with
        | .error e => (.error e, [CallEvent.price, CallEvent.hist, CallEvent.indicators])
        | .ok df_with_bb =>
          match calculate_williams_r df_with_bb WILLIAMS_R_PERIOD with
          | .error e => (.error e, [CallEvent.price, CallEvent.hist, CallEvent.indicators])
          | .ok df =>
            match df.lastCell "close", df.lastCell "bb_lband",
                df.lastCell "bb_hband", df.lastCell "wr" with
            | some cClose, some cLb, some cHb, some cWr =>
              match cClose, cLb, cHb, cWr with
              | some last_close, some lower_band, some upper_band, some william_r =>
                let sr :=
                  if buy_condition last_close lower_band william_r WILLIAMS_R_OVERSOLD then
                    ("BUY", serviceBuyReason last_close lower_band william_r)
                  else if sell_condition last_close upper_band william_r WILLIAMS_R_OVERBOUGHT then
                    ("SELL", serviceSellReason last_close upper_band william_r)
                  else
                    ("HOLD", "No clear signal based on current strategy.")
                (.ok (service_success_dict stock_code df last_close lower_band upper_band
                   william_r current_price sr.1 sr.2),
                 [CallEvent.price, CallEvent.hist, CallEvent.indicators])
              | _, _, _, _ =>
                (.ok (service_no_indicator_dict stock_code current_price),
                 [CallEvent.price, CallEvent.hist, CallEvent.indicators])
            | _, _, _, _ =>
              (.error "KeyError: required indicator columns not in index",
               [CallEvent.price, CallEvent.hist, CallEvent.indicators])

/-- The per-symbol ERROR dict of the `except` clause of `scan_stocks`
(lines 166-170). -/
def scan_error_dict (stock_code e : String) : SignalDict :=
  [("stock_code", PyVal.str stock_code), ("signal", PyVal.str "ERROR"),
   ("reason", PyVal.str ("An unexpected error occurred during analysis: " ++ e))]

/-- The `try/except` body of one loop iteration of `scan_stocks`. -/
def scan_one (client : KisClient) (code : String) : SignalDict :=
  match (analyze_stock client code).1 with
  | .ok analysis => analysis
  | .error e => scan_error_dict code e

/-- Embedding of `TradingService.scan_stocks` (lines 155-171): the
`results = []; for code in ...: results.append(...)` loop. -/
def scan_stocks (client : KisClient) (stock_codes : List String) : List SignalDict :=
  stock_codes.foldl (fun results code => results ++ [scan_one client code]) []

/-- Decidable equality of `Except` results, used only to evaluate the
embedding at concrete inputs. -/
instance (ε α : Type) [DecidableEq ε] [DecidableEq α] : DecidableEq (Except ε α) :=
  fun x y =>
    match x, y with
    | .error a, .error b =>
      if h : a = b then isTrue (by rw [h])
      else isFalse (by intro he; cases he; exact h rfl)
    | .error _, .ok _ => isFalse (by intro h; cases h)
    | .ok _, .error _ => isFalse (by intro h; cases h)
    | .ok a, .ok b =>
      if h : a = b then isTrue (by rw [h])
      else isFalse (by intro he; cases he; exact h rfl)

/-! ## Concrete inputs used by witnesses and counterexamples -/

/-- A constant column of `n` present cells. -/
def constCol (n : Nat) (q : ℚ) : Col := List.replicate n (some q)

/-- `n` consecutive date labels. -/
def rangeIndex (n : Nat) : List Int := (List.range n).map (fun i => 20230101 + (i : Int))

/-- A three-row OHLCV frame (shorter than every default window). -/
def sampleFrame3 : Frame :=
  ⟨[20230101, 20230102, 20230103],
   [("open", [some 10, some 11, some 12]), ("high", [some 11, some 12, some 13]),
    ("low", [some 9, some 10, some 11]), ("close", [some 10, some 11, some 12]),
    ("volume", [some 100, some 110, some 120])]⟩

/-- `sampleFrame3` after `calculate_bollinger_bands` (short branch): the same
frame extended in place with the five all-missing derived columns. -/
def sampleFrame3bb : Frame :=
  ⟨[20230101, 20230102, 20230103],
   [("open", [some 10, some 11, some 12]), ("high", [some 11, some 12, some 13]),
    ("low", [some 9, some 10, some 11]), ("close", [some 10, some 11, some 12]),
    ("volume", [some 100, some 110, some 120]),
    ("bb_mavg", [none, none, none]), ("bb_hband", [none, none, none]),
    ("bb_lband", [none, none, none]), ("bb_pband", [none, none, none]),
    ("bb_wband", [none, none, none])]⟩

/-- A 25-row frame with `high` and `low` but no `close` column. -/
def noCloseFrame : Frame :=
  ⟨rangeIndex 25, [("high", constCol 25 11), ("low", constCol 25 9)]⟩

/-- A raw payload with two records on the same date. -/
def dupRaw : List RawRow :=
  [⟨20230102, some 5, some 6, some 4, some 5, some 100⟩,
   ⟨20230101, some 3, some 4, some 2, some 3, some 100⟩,
   ⟨20230102, some 7, some 8, some 6, some 7, some 100⟩]

/-- What `_fetch_and_prepare_data` makes of `dupRaw`: sorted, duplicate date kept. -/
def dupPrepared : Frame :=
  ⟨[20230101, 20230102, 20230102],
   [("open", [some 3, some 5, some 7]), ("high", [some 4, some 6, some 8]),
    ("low", [some 2, some 4, some 6]), ("close", [some 3, some 5, some 7]),
    ("volume", [some 100, some 100, some 100])]⟩

/-- A collaborator returning the duplicate-date payload. -/
def dupClient : KisClient := ⟨fun _ => .ok (some 100), fun _ => .ok dupRaw⟩

/-- A collaborator whose current-price lookup raises for symbol `Y` and
returns absent for every other symbol; history is irrelevant on those paths. -/
def c9Client : KisClient :=
  ⟨fun code => if code = "Y" then .error "boom" else .ok none, fun _ => .ok []⟩

/-- A collaborator for the batch-scan witness: symbol `B` has a current price
but its history fetch raises; every other symbol has no current price. -/
def c1Client : KisClient :=
  ⟨fun code => if code = "B" then .ok (some 100) else .ok none,
   fun code => if code = "B" then .error "boom" else .ok []⟩

/-- A collaborator with a current price and an empty history payload. -/
def emptyHistClient : KisClient := ⟨fun _ => .ok (some 100), fun _ => .ok []⟩

/-! ## Frame lemmas -/

namespace Frame

theorem colLookup_colReplace_self (l : List (String × Col)) (c : String) (v : Col) :
    colLookup (colReplace l c v) c =
      if (colLookup l c).isSome then some v else none := by
  induction l with
  | nil => simp [colLookup, colReplace]
  | cons p t ih =>
    by_cases h : p.1 = c
    · simp [colLookup, colReplace, h]
    · simp [colLookup, colReplace, h, ih]

theorem colLookup_colReplace_ne (l : List (String × Col)) (c c1 : String) (v : Col)
    (h : c1 ≠ c) :
    colLookup (colReplace l c v) c1 = colLookup l c1 := by
  induction l with
  | nil => simp [colReplace]
  | cons p t ih =>
    by_cases hp : p.1 = c
    · have : c ≠ c1 := fun he => h he.symm
      simp [colLookup, colReplace, hp, this, ih]
    · by_cases hc : p.1 = c1
      · simp only [colReplace, hp, if_false]
        simp [colLookup, hc]
      · simp only [colReplace, hp, if_false]
        simp [colLookup, hc, ih]

theorem colLookup_append_right (l : List (String × Col)) (c : String) (v : Col)
    (h : colLookup l c = none) : colLookup (l ++ [(c, v)]) c = some v := by
  induction l with
  | nil => simp [colLookup]
  | cons p t ih =>
    by_cases hp : p.1 = c
    · simp [colLookup, hp] at h
    · simp only [colLookup, hp, if_false, List.cons_append] at h ⊢
      exact ih h

theorem colLookup_append_ne (l : List (String × Col)) (c c1 : String) (v : Col)
    (h : c1 ≠ c) : colLookup (l ++ [(c, v)]) c1 = colLookup l c1 := by
  induction l with
  | nil =>
    have : c ≠ c1 := fun he => h he.symm
    simp [colLookup, this]
  | cons p t ih =>
    by_cases hp : p.1 = c1
    · simp [colLookup, hp]
    · simp only [colLookup, hp, if_false, List.cons_append]
      exact ih

/-- Writing column `c` makes `c` readable with the written value. -/
theorem getCol_setCol_self (f : Frame) (c : String) (v : Col) :
    (f.setCol c v).getCol c = some v := by
  unfold setCol getCol
  by_cases h : (colLookup f.cols c).isSome
  · simp only [h, if_true]
    rw [colLookup_colReplace_self]
    simp [h]
  · simp only [h, if_false]
    exact colLookup_append_right f.cols c v (by simpa using h)

/-- Writing column `c` leaves every other column unchanged. -/
theorem getCol_setCol_ne (f : Frame) (c c1 : String) (v : Col) (h : c1 ≠ c) :
    (f.setCol c v).getCol c1 = f.getCol c1 := by
  unfold setCol getCol
  by_cases hs : (colLookup f.cols c).isSome
  · simp only [hs, if_true]
    exact colLookup_colReplace_ne f.cols c c1 v h
  · simp only [hs, if_false]
    exact colLookup_append_ne f.cols c c1 v h

/-- Writing a column does not change the index. -/
theorem index_setCol (f : Frame) (c : String) (v : Col) :
    (f.setCol c v).index = f.index := rfl

/-- Writing a column does not change the number of rows. -/
theorem len_setCol (f : Frame) (c : String) (v : Col) :
    (f.setCol c v).len = f.len := rfl

theorem hasCol_setCol_self (f : Frame) (c : String) (v : Col) :
    (f.setCol c v).hasCol c = true := by
  unfold hasCol
  rw [getCol_setCol_self]
  rfl

theorem hasCol_setCol_of_hasCol (f : Frame) (c c1 : String) (v : Col)
    (h : f.hasCol c1 = true) : (f.setCol c v).hasCol c1 = true := by
  by_cases hc : c1 = c
  · subst hc; exact hasCol_setCol_self f c1 v
  · unfold hasCol at h ⊢
    rw [getCol_setCol_ne f c c1 v hc]
    exact h

theorem length_colReplace (l : List (String × Col)) (c : String) (v : Col)
    (hl : ∀ p ∈ l, (p.2 : Col).length = n) (hv : v.length = n) :
    ∀ p ∈ colReplace l c v, (p.2 : Col).length = n := by
  induction l with
  | nil => intro p hp; simp [colReplace] at hp
  | cons q t ih =>
    intro p hp
    by_cases h : q.1 = c
    · simp only [colReplace, h, if_true, List.mem_cons] at hp
      rcases hp with hp | hp
      · rw [hp]; exact hv
      · exact ih (fun r hr => hl r (List.mem_cons_of_mem q hr)) p hp
    · simp only [colReplace, h, if_false, List.mem_cons] at hp
      rcases hp with hp | hp
      · rw [hp]; exact hl q (List.mem_cons_self q t)
      · exact ih (fun r hr => hl r (List.mem_cons_of_mem q hr)) p hp

/-- Writing a column of the right length preserves rectangularity. -/
theorem WF_setCol (f : Frame) (c : String) (v : Col) (hf : f.WF)
    (hv : v.length = f.len) : (f.setCol c v).WF := by
  have hlen : (f.setCol c v).len = f.len := len_setCol f c v
  intro p hp
  rw [hlen]
  unfold setCol at hp
  by_cases hs : (colLookup f.cols c).isSome
  · simp only [hs, if_true] at hp
    exact length_colReplace f.cols c v hf hv p hp
  · simp only [hs, if_false] at hp
    rcases List.mem_append.mp hp with h1 | h1
    · exact hf p h1
    · simp only [List.mem_singleton] at h1
      rw [h1]
      exact hv

end Frame

theorem length_rollingApply (w : Nat) (f : List ℚ → ℚ) (xs : Col) :
    (rollingApply w f xs).length = xs.length := by
  unfold rollingApply
  rw [List.length_map, List.length_range]

theorem length_colZip (op : Cell → Cell → Cell) (a b : Col) :
    (colZip op a b).length = min a.length b.length := by
  unfold colZip
  exact List.length_zipWith op a b


/-! ## Shape lemmas for the indicator engine -/

theorem colLookup_mem (l : List (String × Col)) (c : String) (v : Col)
    (h : colLookup l c = some v) : (c, v) ∈ l := by
  induction l with
  | nil => simp [colLookup] at h
  | cons p t ih =>
    obtain ⟨pa, pb⟩ := p
    by_cases hp : pa = c
    · subst hp
      simp only [colLookup, eq_self_iff_true, if_true, Option.some.injEq] at h
      subst h
      exact List.mem_cons_self _ _
    · simp only [colLookup, hp, if_false] at h
      exact List.mem_cons_of_mem _ (ih h)

/-- Under rectangularity, a present column has one cell per row. -/
theorem WF_getCol_length (f : Frame) (hwf : f.WF) (c : String) (v : Col)
    (h : f.getCol c = some v) : v.length = f.len :=
  hwf (c, v) (colLookup_mem f.cols c v h)

theorem getCol5 (f : Frame) (v1 v2 v3 v4 v5 : Col) :
    (((((f.setCol "bb_mavg" v1).setCol "bb_hband" v2).setCol "bb_lband"
        v3).setCol "bb_pband" v4).setCol "bb_wband" v5).getCol "bb_mavg" = some v1 ∧
    (((((f.setCol "bb_mavg" v1).setCol "bb_hband" v2).setCol "bb_lband"
        v3).setCol "bb_pband" v4).setCol "bb_wband" v5).getCol "bb_hband" = some v2 ∧
    (((((f.setCol "bb_mavg" v1).setCol "bb_hband" v2).setCol "bb_lband"
        v3).setCol "bb_pband" v4).setCol "bb_wband" v5).getCol "bb_lband" = some v3 ∧
    (((((f.setCol "bb_mavg" v1).setCol "bb_hband" v2).setCol "bb_lband"
        v3).setCol "bb_pband" v4).setCol "bb_wband" v5).getCol "bb_pband" = some v4 ∧
    (((((f.setCol "bb_mavg" v1).setCol "bb_hband" v2).setCol "bb_lband"
        v3).setCol "bb_pband" v4).setCol "bb_wband" v5).getCol "bb_wband" = some v5 := by
  refine ⟨?_, ?_, ?_, ?_, ?_⟩
  · rw [Frame.getCol_setCol_ne _ _ _ _ (by decide), Frame.getCol_setCol_ne _ _ _ _ (by decide),
      Frame.getCol_setCol_ne _ _ _ _ (by decide), Frame.getCol_setCol_ne _ _ _ _ (by decide),
      Frame.getCol_setCol_self]
  · rw [Frame.getCol_setCol_ne _ _ _ _ (by decide), Frame.getCol_setCol_ne _ _ _ _ (by decide),
      Frame.getCol_setCol_ne _ _ _ _ (by decide), Frame.getCol_setCol_self]
  · rw [Frame.getCol_setCol_ne _ _ _ _ (by decide), Frame.getCol_setCol_ne _ _ _ _ (by decide),
      Frame.getCol_setCol_self]
  · rw [Frame.getCol_setCol_ne _ _ _ _ (by decide), Frame.getCol_setCol_self]
  · rw [Frame.getCol_setCol_self]

theorem getCol5_other (f : Frame) (v1 v2 v3 v4 v5 : Col) (c : String)
    (hc : c ∉ bbDerivedCols) :
    (((((f.setCol "bb_mavg" v1).setCol "bb_hband" v2).setCol "bb_lband"
        v3).setCol "bb_pband" v4).setCol "bb_wband" v5).getCol c = f.getCol c := by
  simp only [bbDerivedCols, List.mem_cons, List.not_mem_nil, or_false, not_or] at hc
  obtain ⟨h1, h2, h3, h4, h5⟩ := hc
  rw [Frame.getCol_setCol_ne _ _ _ _ h5, Frame.getCol_setCol_ne _ _ _ _ h4,
    Frame.getCol_setCol_ne _ _ _ _ h3, Frame.getCol_setCol_ne _ _ _ _ h2,
    Frame.getCol_setCol_ne _ _ _ _ h1]

theorem WF5 (f : Frame) (v1 v2 v3 v4 v5 : Col) (hf : f.WF)
    (h1 : v1.length = f.len) (h2 : v2.length = f.len) (h3 : v3.length = f.len)
    (h4 : v4.length = f.len) (h5 : v5.length = f.len) :
    (((((f.setCol "bb_mavg" v1).setCol "bb_hband" v2).setCol "bb_lband"
        v3).setCol "bb_pband" v4).setCol "bb_wband" v5).WF := by
  apply Frame.WF_setCol _ _ _ (Frame.WF_setCol _ _ _ (Frame.WF_setCol _ _ _
    (Frame.WF_setCol _ _ _ (Frame.WF_setCol _ _ _ hf h1) h2) h3) h4) h5

/-- `calculate_bollinger_bands` raises exactly when the source column is
missing; on a present column it returns normally. -/
theorem bb_error_iff (data : Frame) (window : Nat) (window_dev : ℚ) (column_name : String) :
    (∃ e, calculate_bollinger_bands data window window_dev column_name = .error e) ↔
      data.hasCol column_name = false := by
  unfold calculate_bollinger_bands
  by_cases h : data.hasCol column_name
  · simp [h]
    by_cases h2 : data.len < window <;> simp [h2]
  · simp [h]

/-- `calculate_williams_r` raises exactly when one of the `high`, `low`,
`close` columns is missing; with all three present it returns normally. -/
theorem wr_error_iff (data : Frame) (period : Nat) :
    (∃ e, calculate_williams_r data period = .error e) ↔
      ¬ (data.hasCol "high" ∧ data.hasCol "low" ∧ data.hasCol "close") := by
  unfold calculate_williams_r
  by_cases h : data.hasCol "high" ∧ data.hasCol "low" ∧ data.hasCol "close"
  · simp [h]
    by_cases h2 : data.len < period <;> simp [h2]
  · simp [h]

/-- Shape of every successful `calculate_bollinger_bands` result: the index
is unchanged, every non-derived column is unchanged, the five derived columns
exist, and rectangularity is preserved. -/
theorem bb_ok_shape (data : Frame) (window : Nat) (window_dev : ℚ)
    (column_name : String) (f1 : Frame)
    (hf : calculate_bollinger_bands data window window_dev column_name = .ok f1) :
    f1.index = data.index ∧
    (∀ c, c ∉ bbDerivedCols → f1.getCol c = data.getCol c) ∧
    (∀ c, c ∈ bbDerivedCols → f1.hasCol c = true) ∧
    (data.WF → f1.WF) := by
  unfold calculate_bollinger_bands at hf
  by_cases h : data.hasCol column_name
  · simp only [h, not_true_eq_false, if_false] at hf
    have hcol : ∃ closeList : Col, data.getCol column_name = some closeList := by
      unfold Frame.hasCol at h
      exact Option.isSome_iff_exists.mp h
    obtain ⟨closeList, hclose⟩ := hcol
    by_cases h2 : data.len < window
    · simp only [h2, if_true, Except.ok.injEq] at hf
      subst hf
      refine ⟨rfl, fun c hc => getCol5_other _ _ _ _ _ _ c hc, ?_, ?_⟩
      · intro c hc
        obtain ⟨g1, g2, g3, g4, g5⟩ := getCol5 data (naCol data.len) (naCol data.len)
          (naCol data.len) (naCol data.len) (naCol data.len)
        simp only [bbDerivedCols, List.mem_cons, List.not_mem_nil, or_false] at hc
        unfold Frame.hasCol
        rcases hc with rfl | rfl | rfl | rfl | rfl
        · rw [g1]; rfl
        · rw [g2]; rfl
        · rw [g3]; rfl
        · rw [g4]; rfl
        · rw [g5]; rfl
      · intro hwf
        have hn : (naCol data.len).length = data.len := List.length_replicate _ _
        exact WF5 data _ _ _ _ _ hwf hn hn hn hn hn
    · simp only [h2, if_false, Except.ok.injEq] at hf
      rw [hclose] at hf
      simp only [Option.getD_some] at hf
      subst hf
      refine ⟨rfl, fun c hc => getCol5_other _ _ _ _ _ _ c hc, ?_, ?_⟩
      · intro c hc
        obtain ⟨g1, g2, g3, g4, g5⟩ := getCol5 data (rollingApply window meanQ closeList) _ _ _ _
        simp only [bbDerivedCols, List.mem_cons, List.not_mem_nil, or_false] at hc
        unfold Frame.hasCol
        rcases hc with rfl | rfl | rfl | rfl | rfl
        · rw [g1]; rfl
        · rw [g2]; rfl
        · rw [g3]; rfl
        · rw [g4]; rfl
        · rw [g5]; rfl
      · intro hwf
        have hcl : closeList.length = data.len := WF_getCol_length data hwf _ _ hclose
        apply WF5 data _ _ _ _ _ hwf <;>
          simp [length_colZip, List.length_map, length_rollingApply, hcl, Nat.min_self]
  · simp [h] at hf

/-- Shape of every successful `calculate_williams_r` result: the index is
unchanged, every column other than `wr` is unchanged, `wr` exists, and
rectangularity is preserved. -/
theorem wr_ok_shape (data : Frame) (period : Nat) (f1 : Frame)
    (hf : calculate_williams_r data period = .ok f1) :
    f1.index = data.index ∧
    (∀ c, c ≠ "wr" → f1.getCol c = data.getCol c) ∧
    f1.hasCol "wr" = true ∧
    (data.WF → f1.WF) := by
  unfold calculate_williams_r at hf
  by_cases h : data.hasCol "high" ∧ data.hasCol "low" ∧ data.hasCol "close"
  · rw [if_neg (by simp [h])] at hf
    obtain ⟨hhigh, hlow, hclose⟩ := h
    obtain ⟨highList, hH⟩ := Option.isSome_iff_exists.mp hhigh
    obtain ⟨lowList, hL⟩ := Option.isSome_iff_exists.mp hlow
    obtain ⟨closeList, hC⟩ := Option.isSome_iff_exists.mp hclose
    by_cases h2 : data.len < period
    · simp only [h2, if_true, Except.ok.injEq] at hf
      subst hf
      refine ⟨rfl, fun c hc => Frame.getCol_setCol_ne _ _ _ _ hc, ?_, ?_⟩
      · exact Frame.hasCol_setCol_self _ _ _
      · intro hwf
        exact Frame.WF_setCol _ _ _ hwf (List.length_replicate _ _)
    · simp only [h2, if_false, Except.ok.injEq] at hf
      rw [hH, hL, hC] at hf
      simp only [Option.getD_some] at hf
      subst hf
      refine ⟨rfl, fun c hc => Frame.getCol_setCol_ne _ _ _ _ hc, ?_, ?_⟩
      · exact Frame.hasCol_setCol_self _ _ _
      · intro hwf
        have hhl : highList.length = data.len := WF_getCol_length data hwf _ _ hH
        have hll : lowList.length = data.len := WF_getCol_length data hwf _ _ hL
        have hcl : closeList.length = data.len := WF_getCol_length data hwf _ _ hC
        apply Frame.WF_setCol _ _ _ hwf
        rw [List.length_map, length_colZip, length_colZip, length_colZip,
          length_rollingApply, length_rollingApply, hhl, hll, hcl, Nat.min_self,
          Nat.min_self]
  · simp [h] at hf

/-- A present column of a nonempty rectangular frame has a last cell. -/
theorem lastCell_isSome_of_WF (f : Frame) (hwf : f.WF) (hlen : f.len ≠ 0)
    (c : String) (h : f.hasCol c = true) : ∃ cell, f.lastCell c = some cell := by
  obtain ⟨l, hl⟩ := Option.isSome_iff_exists.mp h
  have hll : l.length = f.len := WF_getCol_length f hwf c l hl
  have hne : l ≠ [] := by
    intro he
    rw [he] at hll
    exact hlen hll.symm
  unfold Frame.lastCell
  rw [hl]
  simpa using Option.isSome_iff_exists.mp (List.getLast?_isSome.mpr hne)

/-! ## Helper lemmas for the service -/

theorem foldl_append_eq_map (g : String → SignalDict) (codes : List String) :
    ∀ acc : List SignalDict,
      codes.foldl (fun results code => results ++ [g code]) acc = acc ++ codes.map g := by
  induction codes with
  | nil => intro acc; simp
  | cons c t ih =>
    intro acc
    simp only [List.foldl_cons, List.map_cons]
    rw [ih]
    simp

/-- The append loop of `scan_stocks` is the elementwise analysis. -/
theorem scan_stocks_eq_map (client : KisClient) (codes : List String) :
    scan_stocks client codes = codes.map (scan_one client) := by
  unfold scan_stocks
  simpa using foldl_append_eq_map (scan_one client) codes []

/-- Every successful `analyze_stock` result is one of the four literal dicts
of the source, and the NO_DATA dict arises exactly under the insufficient-
history guard. -/
theorem analyze_ok_dict_cases (client : KisClient) (code : String) (d : SignalDict)
    (h : (analyze_stock client code).1 = .ok d) :
    d = service_error_price_dict code ∨
    (∃ cp raw, client.get_stock_price code = .ok (some cp) ∧
      client.get_historical_stock_data code = .ok raw ∧
      ((prepare_raw raw).len = 0 ∨
        (prepare_raw raw).len < max BB_WINDOW WILLIAMS_R_PERIOD) ∧
      d = service_no_data_dict code cp) ∨
    (∃ cp, d = service_no_indicator_dict code cp) ∨
    (∃ df lc lb ub wr cp sg rs,
      d = service_success_dict code df lc lb ub wr cp sg rs ∧
      (sg = "BUY" ∨ sg = "SELL" ∨ sg = "HOLD")) := by
  unfold analyze_stock fetch_and_prepare_data at h
  split at h
  · simp at h
  · simp only [Except.ok.injEq] at h
    subst h
    exact Or.inl rfl
  · rename_i cp hp
    split at h
    · simp at h
    · rename_i df hfetch
      split at h
      · rename_i hlen
        simp only [Except.ok.injEq] at h
        subst h
        cases hr : client.get_historical_stock_data code with
        | error e => rw [hr] at hfetch; simp at hfetch
        | ok raw =>
          rw [hr] at hfetch
          simp only [Except.ok.injEq] at hfetch
          subst hfetch
          exact Or.inr (Or.inl ⟨cp, raw, hp, rfl, hlen, rfl⟩)
      · split at h
        · simp at h
        · rename_i f1 hbb
          split at h
          · simp at h
          · rename_i f2 hwr
            split at h
            · rename_i cClose cLb cHb cWr hc hlb hhb hw
              split at h
              · rename_i lc lb ub wr
                simp only at h
                split at h
                · simp only [Except.ok.injEq] at h
                  subst h
                  exact Or.inr (Or.inr (Or.inr ⟨f2, lc, lb, ub, wr, cp, _, _,
                    rfl, Or.inl rfl⟩))
                · split at h
                  · simp only [Except.ok.injEq] at h
                    subst h
                    exact Or.inr (Or.inr (Or.inr ⟨f2, lc, lb, ub, wr, cp, _, _,
                      rfl, Or.inr (Or.inl rfl)⟩))
                  · simp only [Except.ok.injEq] at h
                    subst h
                    exact Or.inr (Or.inr (Or.inr ⟨f2, lc, lb, ub, wr, cp, _, _,
                      rfl, Or.inr (Or.inr rfl)⟩))
              · simp only [Except.ok.injEq] at h
                subst h
                exact Or.inr (Or.inr (Or.inl ⟨cp, rfl⟩))
            · simp at h

/-- Every successful `BollingerWilliamsStrategy.analyze` result is one of the
three literal dicts of the source, and the NO_DATA dict arises exactly under
the insufficient-history guard. -/
theorem strategy_ok_dict_cases (s : BollingerWilliamsStrategy) (code : String)
    (data : Frame) (cp : ℚ) (d : SignalDict)
    (h : s.analyze code data cp = .ok d) :
    ((data.len = 0 ∨ data.len < max s.bb_window s.wr_period) ∧
      d = strategy_no_data_dict code cp) ∨
    (∃ cClose cLb cHb cWr mid, d = strategy_no_indicator_dict code cp cClose cLb cHb cWr mid) ∨
    (∃ df lc lb ub wr sg rs,
      d = strategy_success_dict code df lc lb ub wr cp sg rs ∧
      (sg = "BUY" ∨ sg = "SELL" ∨ sg = "HOLD")) := by
  unfold BollingerWilliamsStrategy.analyze at h
  split at h
  · rename_i hlen
    simp only [Except.ok.injEq] at h
    subst h
    exact Or.inl ⟨hlen, rfl⟩
  · rename_i hlen
    split at h
    · simp at h
    · rename_i f1 hbb
      split at h
      · simp at h
      · rename_i f2 hwr
        split at h
        · rename_i cClose cLb cHb cWr hc hlb hhb hw
          split at h
          · rename_i lc lb ub wr
            simp only at h
            split at h
            · simp only [Except.ok.injEq] at h
              subst h
              exact Or.inr (Or.inr ⟨f2, lc, lb, ub, wr, _, _, rfl, Or.inl rfl⟩)
            · split at h
              · simp only [Except.ok.injEq] at h
                subst h
                exact Or.inr (Or.inr ⟨f2, lc, lb, ub, wr, _, _, rfl,
                  Or.inr (Or.inl rfl)⟩)
              · simp only [Except.ok.injEq] at h
                subst h
                exact Or.inr (Or.inr ⟨f2, lc, lb, ub, wr, _, _, rfl,
                  Or.inr (Or.inr rfl)⟩)
          · simp only [Except.ok.injEq] at h
            subst h
            exact Or.inr (Or.inl ⟨_, _, _, _, _, rfl⟩)
        · simp at h

/-! Field lookups on the literal result dicts. -/

theorem signal_of_error_price_dict (code : String) :
    dictLookup (service_error_price_dict code) "signal" = some (PyVal.str "ERROR") := rfl

theorem signal_of_no_data_dict (code : String) (cp : ℚ) :
    dictLookup (service_no_data_dict code cp) "signal" = some (PyVal.str "NO_DATA") := rfl

theorem signal_of_no_indicator_dict (code : String) (cp : ℚ) :
    dictLookup (service_no_indicator_dict code cp) "signal" =
      some (PyVal.str "NO_INDICATOR") := rfl

theorem signal_of_success_dict (code : String) (df : Frame)
    (lc lb ub wr cp : ℚ) (sg rs : String) :
    dictLookup (service_success_dict code df lc lb ub wr cp sg rs) "signal" =
      some (PyVal.str sg) := rfl

theorem signal_of_strategy_no_data_dict (code : String) (cp : ℚ) :
    dictLookup (strategy_no_data_dict code cp) "signal" = some (PyVal.str "NO_DATA") := rfl

theorem signal_of_strategy_no_indicator_dict (code : String) (cp : ℚ)
    (c1 c2 c3 c4 c5 : Cell) :
    dictLookup (strategy_no_indicator_dict code cp c1 c2 c3 c4 c5) "signal" =
      some (PyVal.str "NO_INDICATOR") := rfl

theorem signal_of_strategy_success_dict (code : String) (df : Frame)
    (lc lb ub wr cp : ℚ) (sg rs : String) :
    dictLookup (strategy_success_dict code df lc lb ub wr cp sg rs) "signal" =
      some (PyVal.str sg) := rfl

/-! ## Claim theorems -/

/-- C2: for every input series carrying the required schema whose length is
strictly below the window (respectively the period),
`calculate_bollinger_bands` returns normally with all five bb-derived columns
all-missing in every row, and `calculate_williams_r` returns normally with
the `wr` column all-missing in every row. -/
theorem claim_C2_short_series_all_absent (data : Frame) (window period : Nat)
    (window_dev : ℚ) (column_name : String) :
    (data.hasCol column_name = true → data.len < window →
      ∃ f1, calculate_bollinger_bands data window window_dev column_name = .ok f1 ∧
        f1.getCol "bb_mavg" = some (naCol data.len) ∧
        f1.getCol "bb_hband" = some (naCol data.len) ∧
        f1.getCol "bb_lband" = some (naCol data.len) ∧
        f1.getCol "bb_pband" = some (naCol data.len) ∧
        f1.getCol "bb_wband" = some (naCol data.len)) ∧
    (data.hasCol "high" = true → data.hasCol "low" = true →
      data.hasCol "close" = true → data.len < period →
      ∃ f2, calculate_williams_r data period = .ok f2 ∧
        f2.getCol "wr" = some (naCol data.len)) := by
  constructor
  · intro hc hw
    unfold calculate_bollinger_bands
    rw [if_neg (by simp [hc]), if_pos hw]
    obtain ⟨g1, g2, g3, g4, g5⟩ := getCol5 data (naCol data.len) (naCol data.len)
      (naCol data.len) (naCol data.len) (naCol data.len)
    exact ⟨_, rfl, g1, g2, g3, g4, g5⟩
  · intro hh hl hcl hp
    unfold calculate_williams_r
    rw [if_neg (by simp [hh, hl, hcl]), if_pos hp]
    exact ⟨_, rfl, Frame.getCol_setCol_self _ _ _⟩

/-- C2 witness: a concrete three-row OHLCV frame against the default
window 20 and period 14. -/
theorem claim_C2_witness :
    (∃ f1, calculate_bollinger_bands sampleFrame3 20 2 "close" = .ok f1 ∧
      f1.getCol "bb_mavg" = some (naCol sampleFrame3.len) ∧
      f1.getCol "bb_hband" = some (naCol sampleFrame3.len) ∧
      f1.getCol "bb_lband" = some (naCol sampleFrame3.len) ∧
      f1.getCol "bb_pband" = some (naCol sampleFrame3.len) ∧
      f1.getCol "bb_wband" = some (naCol sampleFrame3.len)) ∧
    (∃ f2, calculate_williams_r sampleFrame3 14 = .ok f2 ∧
      f2.getCol "wr" = some (naCol sampleFrame3.len)) :=
  ⟨(claim_C2_short_series_all_absent sampleFrame3 20 14 2 "close").1
      (by decide) (by decide),
   (claim_C2_short_series_all_absent sampleFrame3 20 14 2 "close").2
      (by decide) (by decide) (by decide) (by decide)⟩

/-- C3 as stated is false: `calculate_bollinger_bands` does not leave the
caller's frame unchanged.  The source assigns the derived columns in place on
the argument object and returns that same object, so the post-call state of
the input is the returned frame — which differs from the original already on
a three-row frame. -/
theorem claim_C3_counterexample :
    calculate_bollinger_bands sampleFrame3 20 2 "close" ≠ Except.ok sampleFrame3 := by
  decide

/-- C3 corrected: the indicator functions extend the frame in place, writing
only the derived columns; the index and every non-derived column of the
returned (same) object keep their original values, and the strategy/service
callers pass a private copy, so the caller's own series is unaffected. -/
theorem claim_C3_amended_inplace (data : Frame) (window period : Nat)
    (window_dev : ℚ) (column_name : String) :
    (∀ f1, calculate_bollinger_bands data window window_dev column_name = .ok f1 →
      f1.index = data.index ∧ ∀ c, c ∉ bbDerivedCols → f1.getCol c = data.getCol c) ∧
    (∀ f2, calculate_williams_r data period = .ok f2 →
      f2.index = data.index ∧ ∀ c, c ≠ "wr" → f2.getCol c = data.getCol c) := by
  constructor
  · intro f1 hf
    obtain ⟨hi, ho, _, _⟩ := bb_ok_shape data window window_dev column_name f1 hf
    exact ⟨hi, ho⟩
  · intro f2 hf
    obtain ⟨hi, ho, _, _⟩ := wr_ok_shape data period f2 hf
    exact ⟨hi, ho⟩

/-- C3 witness: on the concrete three-row frame the Bollinger call preserves
the index and the `close` column. -/
theorem claim_C3_amended_witness :
    sampleFrame3bb.index = sampleFrame3.index ∧
    sampleFrame3bb.getCol "close" = sampleFrame3.getCol "close" :=
  ⟨((claim_C3_amended_inplace sampleFrame3 20 14 2 "close").1 sampleFrame3bb
      (by decide)).1,
   ((claim_C3_amended_inplace sampleFrame3 20 14 2 "close").1 sampleFrame3bb
      (by decide)).2 "close" (by decide)⟩

/-- C4 as stated is false: `_fetch_and_prepare_data` has no deduplication
step, so a payload with two records on the same date yields a prepared series
with a duplicate date, which is sorted but not strictly increasing. -/
theorem claim_C4_counterexample :
    fetch_and_prepare_data dupClient "A" = Except.ok dupPrepared ∧
    ¬ dupPrepared.index.Nodup ∧
    ¬ List.Sorted (fun a b : Int => a < b) dupPrepared.index ∧
    dupPrepared.len = dupRaw.length := by
  refine ⟨by decide, by decide, by decide, by decide⟩

/-- C4 corrected: the prepared series is sorted ascending (non-strictly) by
date and is a permutation of the raw rows — duplicate dates are kept, so the
series is non-decreasing but not necessarily strictly increasing by date. -/
theorem claim_C4_amended_sorted_perm (client : KisClient) (code : String)
    (raw : List RawRow) (h : client.get_historical_stock_data code = .ok raw) :
    ∃ f, fetch_and_prepare_data client code = .ok f ∧
      f.index.Sorted (fun a b : Int => a ≤ b) ∧
      f.index.Perm (raw.map (fun r => r.date)) ∧
      f.len = raw.length := by
  refine ⟨prepare_raw raw, ?_, ?_, ?_, ?_⟩
  · unfold fetch_and_prepare_data
    rw [h]
  · unfold prepare_raw
    by_cases he : raw.isEmpty
    · rw [if_pos he]
      exact List.sorted_nil
    · rw [if_neg he]
      have hs := List.sorted_insertionSort rawDateLe raw
      simp only [List.Sorted, List.pairwise_map]
      exact hs
  · unfold prepare_raw
    by_cases he : raw.isEmpty
    · rw [if_pos he]
      rw [List.isEmpty_iff] at he
      subst he
      simp
    · rw [if_neg he]
      exact (List.perm_insertionSort rawDateLe raw).map (fun r => r.date)
  · unfold prepare_raw Frame.len
    by_cases he : raw.isEmpty
    · rw [if_pos he]
      rw [List.isEmpty_iff] at he
      subst he
      rfl
    · rw [if_neg he]
      simp [List.length_insertionSort]

/-- C4 witness: the amended statement applied to the duplicate-date payload. -/
theorem claim_C4_witness :
    ∃ f, fetch_and_prepare_data dupClient "A" = .ok f ∧
      f.index.Sorted (fun a b : Int => a ≤ b) ∧
      f.index.Perm (dupRaw.map (fun r => r.date)) ∧
      f.len = dupRaw.length :=
  claim_C4_amended_sorted_perm dupClient "A" dupRaw rfl

/-- C5: when the collaborator's current-price lookup returns absent,
`analyze_stock` returns the literal ERROR dict with reason
"Failed to fetch current price.", and its event trace contains only the
price call — neither the historical fetch nor the indicator computation ran. -/
theorem claim_C5_price_short_circuit (client : KisClient) (code : String)
    (h : client.get_stock_price code = .ok none) :
    (analyze_stock client code).1 = .ok (service_error_price_dict code) ∧
    dictLookup (service_error_price_dict code) "signal" = some (PyVal.str "ERROR") ∧
    dictLookup (service_error_price_dict code) "reason" =
      some (PyVal.str "Failed to fetch current price.") ∧
    (analyze_stock client code).2 = [CallEvent.price] ∧
    CallEvent.hist ∉ (analyze_stock client code).2 ∧
    CallEvent.indicators ∉ (analyze_stock client code).2 := by
  unfold analyze_stock
  rw [h]
  refine ⟨rfl, rfl, rfl, rfl, ?_, ?_⟩ <;> simp

/-- C5 witness: a concrete collaborator whose price lookup returns absent
for symbol `A`. -/
theorem claim_C5_witness :
    (analyze_stock c1Client "A").1 = .ok (service_error_price_dict "A") ∧
    dictLookup (service_error_price_dict "A") "signal" = some (PyVal.str "ERROR") ∧
    dictLookup (service_error_price_dict "A") "reason" =
      some (PyVal.str "Failed to fetch current price.") ∧
    (analyze_stock c1Client "A").2 = [CallEvent.price] ∧
    CallEvent.hist ∉ (analyze_stock c1Client "A").2 ∧
    CallEvent.indicators ∉ (analyze_stock c1Client "A").2 :=
  claim_C5_price_short_circuit c1Client "A" (by decide)

/-- C7 as stated is false: over unconstrained band values and thresholds the
BUY trigger and the SELL trigger hold simultaneously, e.g. with the lower
band above the upper band and an oversold threshold above the overbought
threshold. -/
theorem claim_C7_counterexample :
    buy_condition 5 10 (-50) 0 = true ∧ sell_condition 5 0 (-50) (-100) = true := by
  decide

/-- C7 corrected: whenever the lower band does not exceed the upper band —
as holds for every band pair produced as mean ∓ k·σ with k·σ ≥ 0 — the BUY
and SELL triggers are mutually exclusive for every close, Williams %R value
and thresholds. -/
theorem claim_C7_amended_exclusive (last_close lower_band upper_band william_r
    wr_oversold wr_overbought : ℚ) (h : lower_band ≤ upper_band) :
    ¬ (buy_condition last_close lower_band william_r wr_oversold = true ∧
       sell_condition last_close upper_band william_r wr_overbought = true) := by
  rintro ⟨hb, hs⟩
  simp only [buy_condition, sell_condition, Bool.and_eq_true, decide_eq_true_eq] at hb hs
  linarith [hb.1, hs.1]

/-- C7 witness: exclusivity at a concrete ordered band pair. -/
theorem claim_C7_witness :
    ¬ (buy_condition 99 100 (-90) (-80) = true ∧
       sell_condition 99 110 (-90) (-20) = true) :=
  claim_C7_amended_exclusive 99 100 110 (-90) (-80) (-20) (by norm_num)

/-- C8: each indicator function raises exactly when its required columns are
missing from the schema, and the strategy does not catch that error: with
enough rows but no `close` column, `analyze` propagates the failure. -/
theorem claim_C8_missing_column (data : Frame) (window period : Nat)
    (window_dev : ℚ) (column_name : String) (s : BollingerWilliamsStrategy)
    (code : String) (cp : ℚ) :
    ((∃ e, calculate_bollinger_bands data window window_dev column_name = .error e) ↔
      data.hasCol column_name = false) ∧
    ((∃ e, calculate_williams_r data period = .error e) ↔
      ¬ (data.hasCol "high" ∧ data.hasCol "low" ∧ data.hasCol "close")) ∧
    (¬ (data.len = 0 ∨ data.len < max s.bb_window s.wr_period) →
      data.hasCol "close" = false →
      ∃ e, s.analyze code data cp = .error e) := by
  refine ⟨bb_error_iff data window window_dev column_name,
    wr_error_iff data period, ?_⟩
  intro hlen hc
  obtain ⟨e, he⟩ := (bb_error_iff data s.bb_window s.bb_std_dev "close").mpr hc
  unfold BollingerWilliamsStrategy.analyze
  rw [if_neg hlen, he]
  exact ⟨e, rfl⟩

/-- C8 witness: a 25-row frame without a `close` column makes the default
strategy raise (uncaught). -/
theorem claim_C8_witness :
    ∃ e, defaultStrategy.analyze "TEST" noCloseFrame 100 = Except.error e :=
  (claim_C8_missing_column noCloseFrame 20 14 2 "close" defaultStrategy "TEST" 100).2.2
    (by decide) (by decide)

/-- C1: `scan_stocks` yields exactly one result per input code in input
order; a position's result is its own standalone analysis when that analysis
returns, and the literal per-symbol ERROR dict (reason carrying the raised
message) when it raises — so one symbol's failure cannot change any other
position's value, position or the count. -/
theorem claim_C1_scan_isolation (client : KisClient) (codes : List String) :
    (scan_stocks client codes).length = codes.length ∧
    (∀ (i : Nat) (hi : i < codes.length)
        (hs : i < (scan_stocks client codes).length),
      (scan_stocks client codes).get ⟨i, hs⟩ = scan_one client (codes.get ⟨i, hi⟩)) ∧
    (∀ code r, (analyze_stock client code).1 = .ok r → scan_one client code = r) ∧
    (∀ code e, (analyze_stock client code).1 = .error e →
      scan_one client code = scan_error_dict code e ∧
      dictLookup (scan_error_dict code e) "signal" = some (PyVal.str "ERROR") ∧
      dictLookup (scan_error_dict code e) "reason" =
        some (PyVal.str ("An unexpected error occurred during analysis: " ++ e))) := by
  refine ⟨?_, ?_, ?_, ?_⟩
  · rw [scan_stocks_eq_map, List.length_map]
  · intro i hi hs
    simp [scan_stocks_eq_map, List.get_eq_getElem, List.getElem_map]
  · intro code r hr
    unfold scan_one
    rw [hr]
  · intro code e he
    unfold scan_one
    rw [he]
    exact ⟨rfl, rfl, rfl⟩

/-- C1 witness: three symbols where analyzing `B` raises from the
collaborator — the batch still has three results and position 1 is the
ERROR dict for `B`. -/
theorem claim_C1_witness :
    (scan_stocks c1Client ["A", "B", "C"]).length = 3 ∧
    (∃ hs : 1 < (scan_stocks c1Client ["A", "B", "C"]).length,
      (scan_stocks c1Client ["A", "B", "C"]).get ⟨1, hs⟩ = scan_error_dict "B" "boom") ∧
    dictLookup (scan_error_dict "B" "boom") "signal" = some (PyVal.str "ERROR") := by
  have h := claim_C1_scan_isolation c1Client ["A", "B", "C"]
  have hb := h.2.2.2 "B" "boom" (by decide)
  have hs : 1 < (scan_stocks c1Client ["A", "B", "C"]).length := by
    rw [h.1]
    decide
  refine ⟨h.1, ⟨hs, ?_⟩, hb.2.1⟩
  rw [h.2.1 1 (by decide) hs]
  exact hb.1

/-- C6 as stated is false on the service path: the NO_DATA result of
`analyze_stock` carries no `indicators` field at all (and no
`price_at_signal` field) rather than an empty indicators mapping. -/
theorem claim_C6_counterexample :
    (analyze_stock emptyHistClient "X").1 = .ok (service_no_data_dict "X" 100) ∧
    dictLookup (service_no_data_dict "X" 100) "signal" = some (PyVal.str "NO_DATA") ∧
    dictLookup (service_no_data_dict "X" 100) "indicators" = none ∧
    dictLookup (service_no_data_dict "X" 100) "price_at_signal" = none := by
  exact ⟨by decide, rfl, rfl, rfl⟩

/-- C6 corrected: both entry points return NO_DATA exactly when the series is
empty or shorter than max(bbWindow, wrPeriod).  The strategy's NO_DATA dict
has an absent priceAtSignal and an empty indicators mapping; the service's
NO_DATA dict instead carries the fetched current price and omits the
priceAtSignal and indicators fields entirely, and its trace shows the
indicator stage never ran. -/
theorem claim_C6_amended_no_data (s : BollingerWilliamsStrategy) (scode : String)
    (data : Frame) (scp : ℚ) (client : KisClient) (code : String) (cp : ℚ)
    (raw : List RawRow) :
    ((data.len = 0 ∨ data.len < max s.bb_window s.wr_period) →
      s.analyze scode data scp = .ok (strategy_no_data_dict scode scp)) ∧
    (∀ d, s.analyze scode data scp = .ok d →
      dictLookup d "signal" = some (PyVal.str "NO_DATA") →
      (data.len = 0 ∨ data.len < max s.bb_window s.wr_period)) ∧
    dictLookup (strategy_no_data_dict scode scp) "price_at_signal" = some PyVal.null ∧
    dictLookup (strategy_no_data_dict scode scp) "indicators" = some (PyVal.dict []) ∧
    dictLookup (strategy_no_data_dict scode scp) "reason" =
      some (PyVal.str "분석을 위한 과거 데이터 부족.") ∧
    (client.get_stock_price code = .ok (some cp) →
      client.get_historical_stock_data code = .ok raw →
      ((prepare_raw raw).len = 0 ∨
        (prepare_raw raw).len < max BB_WINDOW WILLIAMS_R_PERIOD) →
      analyze_stock client code =
        (.ok (service_no_data_dict code cp), [CallEvent.price, CallEvent.hist])) ∧
    (∀ d, (analyze_stock client code).1 = .ok d →
      dictLookup d "signal" = some (PyVal.str "NO_DATA") →
      ∃ cp2 raw2, client.get_stock_price code = .ok (some cp2) ∧
        client.get_historical_stock_data code = .ok raw2 ∧
        ((prepare_raw raw2).len = 0 ∨
          (prepare_raw raw2).len < max BB_WINDOW WILLIAMS_R_PERIOD)) ∧
    dictLookup (service_no_data_dict code cp) "reason" =
      some (PyVal.str "Insufficient historical data.") ∧
    dictLookup (service_no_data_dict code cp) "price_at_signal" = none ∧
    dictLookup (service_no_data_dict code cp) "indicators" = none := by
  refine ⟨?_, ?_, rfl, rfl, rfl, ?_, ?_, rfl, rfl, rfl⟩
  · intro hlen
    unfold BollingerWilliamsStrategy.analyze
    rw [if_pos hlen]
  · intro d hd hsig
    rcases strategy_ok_dict_cases s scode data scp d hd with
      ⟨hlen, _⟩ | ⟨c1, c2, c3, c4, c5, rfl⟩ | ⟨df, lc, lb, ub, wr, sg, rs, rfl, hsg⟩
    · exact hlen
    · rw [signal_of_strategy_no_indicator_dict] at hsig
      exact absurd hsig (by decide)
    · rw [signal_of_strategy_success_dict] at hsig
      rcases hsg with rfl | rfl | rfl <;> exact absurd hsig (by decide)
  · intro hp hr hlen
    simp only [analyze_stock, fetch_and_prepare_data, hp, hr]
    rw [if_pos hlen]
  · intro d hd hsig
    rcases analyze_ok_dict_cases client code d hd with
      rfl | ⟨cp2, raw2, hp2, hr2, hlen2, rfl⟩ | ⟨cp2, rfl⟩ |
      ⟨df, lc, lb, ub, wr, cp2, sg, rs, rfl, hsg⟩
    · rw [signal_of_error_price_dict] at hsig
      exact absurd hsig (by decide)
    · exact ⟨cp2, raw2, hp2, hr2, hlen2⟩
    · rw [signal_of_no_indicator_dict] at hsig
      exact absurd hsig (by decide)
    · rw [signal_of_success_dict] at hsig
      rcases hsg with rfl | rfl | rfl <;> exact absurd hsig (by decide)

/-- C6 witness: the strategy's NO_DATA dict on a three-row series and the
service's NO_DATA dict on an empty history payload. -/
theorem claim_C6_witness :
    defaultStrategy.analyze "T" sampleFrame3 100 =
      .ok (strategy_no_data_dict "T" 100) ∧
    analyze_stock emptyHistClient "X" =
      (.ok (service_no_data_dict "X" 100), [CallEvent.price, CallEvent.hist]) := by
  have h := claim_C6_amended_no_data defaultStrategy "T" sampleFrame3 100
    emptyHistClient "X" 100 []
  exact ⟨h.1 (by decide), h.2.2.2.2.2.1 (by decide) (by decide) (by decide)⟩

/-- C9 as stated is false: the current-price ERROR result of `analyze_stock`
carries neither a timestamp nor an indicators field, and the caught-exception
result of `scan_stocks` has yet another (three-field) shape. -/
theorem claim_C9_counterexample :
    (analyze_stock c9Client "X").1 = .ok (service_error_price_dict "X") ∧
    dictLookup (service_error_price_dict "X") "timestamp" = none ∧
    dictLookup (service_error_price_dict "X") "indicators" = none ∧
    scan_stocks c9Client ["X", "Y"] =
      [service_error_price_dict "X", scan_error_dict "Y" "boom"] ∧
    dictKeys (service_error_price_dict "X") ≠ dictKeys (scan_error_dict "Y" "boom") := by
  exact ⟨by decide, rfl, rfl, by decide, by decide⟩

/-- C9 corrected: the result dicts are not structurally uniform across
branches (the success path has seven fields, the short-circuit paths four,
the caught-exception path three); what is stable is that every result of
`scan_stocks` — hence every branch of `analyze_stock` — carries the
stock_code, signal and reason fields. -/
theorem claim_C9_amended_core_fields (client : KisClient) (codes : List String)
    (d : SignalDict) (hd : d ∈ scan_stocks client codes) :
    (dictLookup d "stock_code").isSome ∧ (dictLookup d "signal").isSome ∧
    (dictLookup d "reason").isSome := by
  rw [scan_stocks_eq_map] at hd
  obtain ⟨code, hcode, rfl⟩ := List.mem_map.mp hd
  unfold scan_one
  cases ha : (analyze_stock client code).1 with
  | error e => exact ⟨rfl, rfl, rfl⟩
  | ok d0 =>
    rcases analyze_ok_dict_cases client code d0 ha with
      rfl | ⟨cp, raw, _, _, _, rfl⟩ | ⟨cp, rfl⟩ |
      ⟨df, lc, lb, ub, wr, cp, sg, rs, rfl, _⟩ <;> exact ⟨rfl, rfl, rfl⟩

/-- C9 witness: the amended statement applied to a concrete ERROR result. -/
theorem claim_C9_amended_witness :
    (dictLookup (service_error_price_dict "X") "stock_code").isSome ∧
    (dictLookup (service_error_price_dict "X") "signal").isSome ∧
    (dictLookup (service_error_price_dict "X") "reason").isSome :=
  claim_C9_amended_core_fields c9Client ["X"] (service_error_price_dict "X") (by decide)

/-- C10: on a rectangular frame with the `high`, `low` and `close` columns
present, the Bollinger call always succeeds with all five derived columns
present, the Williams call on its output succeeds adding `wr` while keeping
those columns, and the strategy's analyze never fails with a missing-key
error — every branch returns a result dict. -/
theorem claim_C10_columns_always_present (s : BollingerWilliamsStrategy)
    (code : String) (data : Frame) (cp : ℚ) (hwf : data.WF)
    (hh : data.hasCol "high" = true) (hl : data.hasCol "low" = true)
    (hc : data.hasCol "close" = true) :
    (∃ f1 f2, calculate_bollinger_bands data s.bb_window s.bb_std_dev "close" = .ok f1 ∧
      (∀ c, c ∈ bbDerivedCols → f1.hasCol c = true) ∧
      calculate_williams_r f1 s.wr_period = .ok f2 ∧
      f2.hasCol "wr" = true ∧ (∀ c, c ∈ bbDerivedCols → f2.hasCol c = true) ∧
      f2.hasCol "close" = true) ∧
    (∃ r, s.analyze code data cp = .ok r) := by
  have hbb : ∃ f1, calculate_bollinger_bands data s.bb_window s.bb_std_dev "close"
      = .ok f1 := by
    cases hres : calculate_bollinger_bands data s.bb_window s.bb_std_dev "close" with
    | ok f1 => exact ⟨f1, rfl⟩
    | error e =>
      have hfalse := (bb_error_iff data s.bb_window s.bb_std_dev "close").mp ⟨e, hres⟩
      rw [hc] at hfalse
      cases hfalse
  obtain ⟨f1, hbb⟩ := hbb
  obtain ⟨hidx1, hother1, hderived1, hwf1⟩ :=
    bb_ok_shape data s.bb_window s.bb_std_dev "close" f1 hbb
  have hh1 : f1.hasCol "high" = true := by
    unfold Frame.hasCol
    rw [hother1 "high" (by decide)]
    exact hh
  have hl1 : f1.hasCol "low" = true := by
    unfold Frame.hasCol
    rw [hother1 "low" (by decide)]
    exact hl
  have hc1 : f1.hasCol "close" = true := by
    unfold Frame.hasCol
    rw [hother1 "close" (by decide)]
    exact hc
  have hwr : ∃ f2, calculate_williams_r f1 s.wr_period = .ok f2 := by
    cases hres : calculate_williams_r f1 s.wr_period with
    | ok f2 => exact ⟨f2, rfl⟩
    | error e =>
      exact absurd ⟨hh1, hl1, hc1⟩ ((wr_error_iff f1 s.wr_period).mp ⟨e, hres⟩)
  obtain ⟨f2, hwr⟩ := hwr
  obtain ⟨hidx2, hother2, hwrcol, hwf2⟩ := wr_ok_shape f1 s.wr_period f2 hwr
  have hderived2 : ∀ c, c ∈ bbDerivedCols → f2.hasCol c = true := by
    intro c hcmem
    have hne : c ≠ "wr" := by
      simp only [bbDerivedCols, List.mem_cons, List.not_mem_nil, or_false] at hcmem
      rcases hcmem with rfl | rfl | rfl | rfl | rfl <;> decide
    unfold Frame.hasCol
    rw [hother2 c hne]
    exact hderived1 c hcmem
  have hc2 : f2.hasCol "close" = true := by
    unfold Frame.hasCol
    rw [hother2 "close" (by decide)]
    exact hc1
  refine ⟨⟨f1, f2, hbb, hderived1, hwr, hwrcol, hderived2, hc2⟩, ?_⟩
  by_cases hlen : data.len = 0 ∨ data.len < max s.bb_window s.wr_period
  · refine ⟨strategy_no_data_dict code cp, ?_⟩
    unfold BollingerWilliamsStrategy.analyze
    rw [if_pos hlen]
  · have hlen2 : f2.len = data.len := by
      unfold Frame.len
      rw [hidx2, hidx1]
    have hne0 : f2.len ≠ 0 := by
      rw [hlen2]
      intro h0
      exact hlen (Or.inl h0)
    have hwf2' : f2.WF := hwf2 (hwf1 hwf)
    obtain ⟨cellC, hcellC⟩ := lastCell_isSome_of_WF f2 hwf2' hne0 "close" hc2
    obtain ⟨cellLb, hcellLb⟩ := lastCell_isSome_of_WF f2 hwf2' hne0 "bb_lband"
      (hderived2 "bb_lband" (by decide))
    obtain ⟨cellHb, hcellHb⟩ := lastCell_isSome_of_WF f2 hwf2' hne0 "bb_hband"
      (hderived2 "bb_hband" (by decide))
    obtain ⟨cellWr, hcellWr⟩ := lastCell_isSome_of_WF f2 hwf2' hne0 "wr" hwrcol
    unfold BollingerWilliamsStrategy.analyze
    rw [if_neg hlen]
    simp only [hbb, hwr, hcellC, hcellLb, hcellHb, hcellWr]
    rcases cellC with _ | lc <;> rcases cellLb with _ | lb <;>
      rcases cellHb with _ | ub <;> rcases cellWr with _ | wr <;> exact ⟨_, rfl⟩

/-- C10 witness: the short three-row frame satisfies the precondition; the
derived columns exist and the default strategy returns a result dict. -/
theorem claim_C10_witness :
    (∃ f1 f2, calculate_bollinger_bands sampleFrame3 defaultStrategy.bb_window
        defaultStrategy.bb_std_dev "close" = .ok f1 ∧
      (∀ c, c ∈ bbDerivedCols → f1.hasCol c = true) ∧
      calculate_williams_r f1 defaultStrategy.wr_period = .ok f2 ∧
      f2.hasCol "wr" = true ∧ (∀ c, c ∈ bbDerivedCols → f2.hasCol c = true) ∧
      f2.hasCol "close" = true) ∧
    (∃ r, defaultStrategy.analyze "T" sampleFrame3 100 = .ok r) :=
  claim_C10_columns_always_present defaultStrategy "T" sampleFrame3 100
    (by decide) (by decide) (by decide) (by decide)

end AlgoTrade
